import Mathlib

/-!
Verification development for the giveaway lifecycle engine of the
Discord Bot Control Panel repository.

The durable shape of the data comes from src/database/schema.sql
(tables Giveaways, GiveawayEntries, GiveawayWinners), the management UI
behaviour from the GiveawayManager React page, and the HTTP client from
src/frontend/src/services/api.js.  The backend request handlers, the
scheduler and the winner selector are not part of the repository
snapshot; where a definition models one of those missing parts its doc
comment says so explicitly and names the section of the design document
it follows.

Machine integers (BIGINT ids) are modelled as Int, SERIAL ids and
timestamps as Nat.  Audit columns that no statement here touches
(message_id, created_by, created_at, updated_at, won_at, prize_received)
are omitted from the record types.
-/

namespace Deckhand

/-- Status CHECK constraint of the Giveaways table, schema.sql line 183:
status IN (scheduled, active, ended, cancelled). -/
def statusAllowed (st : String) : Bool :=
  st == "scheduled" || st == "active" || st == "ended" || st == "cancelled"

/-- A row of the Giveaways table (schema.sql lines 177-192). -/
structure Giveaway where
  id : Nat
  channel_id : Int
  prize : String
  winner_count : Int
  status : String
  start_at : Nat
  end_at : Nat
  required_role_id : Option Int
  max_entries_per_user : Int
  description : Option String
  deriving DecidableEq

/-- The row-level CHECK constraints of the Giveaways table:
winner_count > 0, status in the allowed set, end_at > start_at.
The max_entries_per_user column carries no CHECK constraint in the
schema, only DEFAULT 1, so it is not examined here. -/
def giveawayRowChecks (g : Giveaway) : Bool :=
  decide (0 < g.winner_count) && statusAllowed g.status &&
    decide (g.start_at < g.end_at)

/-- A row of the GiveawayEntries table (schema.sql lines 205-213). -/
structure Entry where
  giveaway_id : Nat
  user_id : Int
  entered_at : Nat
  is_winner : Bool
  deriving DecidableEq

/-- A row of the GiveawayWinners table (schema.sql lines 219-226). -/
structure WinnerRecord where
  giveaway_id : Nat
  user_id : Int
  announced_at : Nat
  deriving DecidableEq

/-- The giveaway-related portion of the durable store. -/
structure StoreState where
  giveaways : List Giveaway
  entries : List Entry
  winners : List WinnerRecord
  nextId : Nat
  deriving DecidableEq

/-- The empty store a fresh deployment starts from. -/
def initialStore : StoreState :=
  { giveaways := [], entries := [], winners := [], nextId := 1 }

/-- The UNIQUE (giveaway_id, user_id) key of the GiveawayEntries table. -/
def entryKey (e : Entry) : Nat × Int :=
  (e.giveaway_id, e.user_id)

/-- The uniqueness constraint UNIQUE (giveaway_id, user_id) on
GiveawayEntries, as a predicate on store states. -/
def entriesUnique (s : StoreState) : Prop :=
  (s.entries.map entryKey).Nodup

/-- Every stored giveaway satisfies the status CHECK constraint. -/
def statusesOk (s : StoreState) : Prop :=
  ∀ g ∈ s.giveaways, statusAllowed g.status = true

/-! ## Frontend: GiveawayManager page and the HTTP client (api.js) -/

/-- HTTP method of an axios call in api.js. -/
inductive HttpMethod where
  | GET
  | POST
  | PUT
  | DELETE
  deriving DecidableEq

/-- An HTTP request issued by the api.js client. -/
structure ApiRequest where
  method : HttpMethod
  path : String
  deriving DecidableEq

/-- giveawayAPI.updateGiveaway in api.js: PUT /giveaways/:id. -/
def updateGiveawayRequest (id : Nat) : ApiRequest :=
  { method := HttpMethod.PUT, path := "/giveaways/" ++ toString id }

/-- giveawayAPI.createGiveaway in api.js: POST /giveaways. -/
def createGiveawayRequest : ApiRequest :=
  { method := HttpMethod.POST, path := "/giveaways" }

/-- giveawayAPI.deleteGiveaway in api.js: DELETE /giveaways/:id. -/
def deleteGiveawayRequest (id : Nat) : ApiRequest :=
  { method := HttpMethod.DELETE, path := "/giveaways/" ++ toString id }

/-- giveawayAPI.endGiveaway in api.js: POST /giveaways/:id/end. -/
def endGiveawayRequest (id : Nat) : ApiRequest :=
  { method := HttpMethod.POST, path := "/giveaways/" ++ toString id ++ "/end" }

/-- isGiveawayActive in the GiveawayManager page:
now >= start and now <= end and status === "active".
Note the inclusive comparison at both window ends. -/
def isGiveawayActive (g : Giveaway) (now : Nat) : Bool :=
  decide (g.start_at ≤ now) && decide (now ≤ g.end_at) && (g.status == "active")

/-- Disabled predicate of the edit IconButton in the giveaways table:
disabled when giveaway.status === "ended". -/
def editButtonDisabled (st : String) : Bool :=
  st == "ended"

/-- Disabled predicate of the delete IconButton in the giveaways table:
disabled when giveaway.status === "active". -/
def deleteButtonDisabled (st : String) : Bool :=
  st == "active"

/-- The max-entries form field handler, parseInt(value) || 1:
a NaN parse (modelled as none) and a parsed 0 both fall back to 1,
every other parsed integer, negative ones included, passes through. -/
def maxEntriesFormValue : Option Int → Int
  | none => 1
  | some n => if n == 0 then 1 else n

/-- The giveaway create/edit dialog form state of the GiveawayManager. -/
structure FormData where
  prize : String
  winner_count : Int
  channel_id : String
  start_at : Nat
  end_at : Nat
  description : String
  required_role_id : String
  max_entries_per_user : Int
  deriving DecidableEq

/-- What handleSubmit does with a validated form. -/
inductive FormAction where
  | noSend
  | send (r : ApiRequest)
  deriving DecidableEq

/-- Whitespace trimming as performed by the trim call of handleSubmit,
written over the character list of the string. -/
def jsTrim (s : String) : String :=
  String.mk
    (((s.data.dropWhile Char.isWhitespace).reverse.dropWhile
      Char.isWhitespace).reverse)

/-- handleSubmit of the GiveawayManager page: client-side validation
(prize non-blank after trimming, channel set, end after start), then
either a PUT to the update endpoint (edit mode) or a POST to the
create endpoint. -/
def handleSubmitAction (editing : Option Nat) (f : FormData) : FormAction :=
  if jsTrim f.prize == "" then FormAction.noSend
  else if f.channel_id == "" then FormAction.noSend
  else if decide (f.end_at ≤ f.start_at) then FormAction.noSend
  else
    match editing with
    | some id => FormAction.send (updateGiveawayRequest id)
    | none => FormAction.send createGiveawayRequest

/-! ## Winner selector

Modelled from the spec, section 4.4: the selector is not part of the
repository snapshot. -/

/-- Modelled from the spec: the partial Fisher-Yates draw step of the
Winner Selector (section 4.4), which is missing from the repository
snapshot.  Takes k elements from the pool: at each step the injected
random source picks an index into the remaining pool, the element there
is emitted and removed. -/
def drawLoop (rng : Nat → Nat) : Nat → Nat → List Int → List Int
  | 0, _, _ => []
  | _ + 1, _, [] => []
  | k + 1, step, p :: ps =>
      let pool := p :: ps
      let x := pool.getD (rng step % pool.length) p
      x :: drawLoop rng k (step + 1) (pool.erase x)

/-- Modelled from the spec: select(entrantIds, winnerCount, rng) of the
Winner Selector (section 4.4), which is missing from the repository
snapshot.  The entrant ids are deduplicated and sorted so that
iteration order cannot bias the draw; if at most winnerCount entrants
remain they are all returned, otherwise a partial Fisher-Yates draw of
exactly winnerCount elements is performed. -/
def sortedEntrants (entrants : List Int) : List Int :=
  List.insertionSort (· ≤ ·) entrants.dedup

/-- Modelled from the spec: the branch structure of select (section
4.4): all entrants when at most winnerCount remain after
deduplication, a partial Fisher-Yates draw otherwise. -/
def select (entrants : List Int) (winnerCount : Nat) (rng : Nat → Nat) : List Int :=
  if (sortedEntrants entrants).length ≤ winnerCount then sortedEntrants entrants
  else drawLoop rng winnerCount 0 (sortedEntrants entrants)

/-! ## Store operations

The request handlers and the scheduler live in the backend, which is
missing from the repository snapshot; the operations below are modelled
from the spec (sections 4.1-4.3 and 6), over the durable shape fixed by
schema.sql.  Each operation returns its outcome together with the
resulting store state; a non-accepting outcome leaves the store
untouched. -/

/-- Outcome taxonomy of the Entry Tracker submit operation (spec 4.2). -/
inductive EntryOutcome where
  | Accepted
  | AlreadyEntered
  | NotEligible
  | GiveawayNotOpen
  deriving DecidableEq

/-- Error answered by a rejected create (spec 4.1 and 7). -/
inductive CreateError where
  | ValidationError
  deriving DecidableEq

/-- Outcome of a finalize attempt (spec 4.3 and 7). -/
inductive FinalizeOutcome where
  | Finalized (winners : List Int)
  | StateConflict
  | NotFound
  deriving DecidableEq

/-- The creation payload of POST /giveaways (API_REFERENCE.md): prize,
winner_count, channel_id, start_at, end_at, description,
required_role_id, max_entries_per_user (the last field optional, the
schema default applying when it is absent). -/
structure GiveawaySpecIn where
  prize : String
  winner_count : Int
  channel_id : Int
  start_at : Nat
  end_at : Nat
  description : Option String
  required_role_id : Option Int
  max_entries_per_user : Option Int
  deriving DecidableEq

/-- The Giveaways row a successful create persists: status starts at
scheduled (spec section 2), max_entries_per_user takes the schema
DEFAULT 1 when the payload omits it. -/
def mkGiveawayRow (gid : Nat) (sp : GiveawaySpecIn) : Giveaway :=
  { id := gid
    channel_id := sp.channel_id
    prize := sp.prize
    winner_count := sp.winner_count
    status := "scheduled"
    start_at := sp.start_at
    end_at := sp.end_at
    required_role_id := sp.required_role_id
    max_entries_per_user := sp.max_entries_per_user.getD 1
    description := sp.description }

/-- Modelled from the spec: create(spec) -> id of the Giveaway Store
(section 4.1), whose handler is missing from the repository snapshot.
Validation mirrors the CHECK constraints of the Giveaways table
(winner_count > 0, end_at > start_at); a rejected spec is never
persisted. -/
def createGiveaway (sp : GiveawaySpecIn) (s : StoreState) :
    Except CreateError Nat × StoreState :=
  if decide (0 < sp.winner_count) && decide (sp.start_at < sp.end_at) then
    (Except.ok s.nextId,
      { s with
        giveaways := mkGiveawayRow s.nextId sp :: s.giveaways
        nextId := s.nextId + 1 })
  else
    (Except.error CreateError.ValidationError, s)

/-- Eligibility filter of the Entry Tracker (spec 4.2): when
required_role_id is set the submitted roles must contain it. -/
def roleOk (g : Giveaway) (roles : List Int) : Bool :=
  match g.required_role_id with
  | none => true
  | some r => roles.contains r

/-- Does the store already hold an entry for this (giveaway, user)
pair?  This is the lookup the UNIQUE constraint of GiveawayEntries
answers. -/
def hasEntry (s : StoreState) (gid : Nat) (uid : Int) : Bool :=
  s.entries.any (fun e => e.giveaway_id == gid && e.user_id == uid)

/-- Modelled from the spec: submit(giveawayId, participantId,
participantRoles) of the Entry Tracker (section 4.2), whose handler is
missing from the repository snapshot.  Preconditions are checked in the
order the spec gives: giveaway exists, then the combined status and
time-window gate - which is the isGiveawayActive predicate of the
GiveawayManager page, with its inclusive comparison at end_at - then
the role filter, then the duplicate check backed by the UNIQUE
constraint of GiveawayEntries. -/
def submit (s : StoreState) (gid : Nat) (uid : Int) (roles : List Int)
    (now : Nat) : EntryOutcome × StoreState :=
  match s.giveaways.find? (fun g => g.id == gid) with
  | none => (EntryOutcome.GiveawayNotOpen, s)
  | some g =>
      if !isGiveawayActive g now then (EntryOutcome.GiveawayNotOpen, s)
      else if !roleOk g roles then (EntryOutcome.NotEligible, s)
      else if hasEntry s gid uid then (EntryOutcome.AlreadyEntered, s)
      else
        (EntryOutcome.Accepted,
          { s with
            entries :=
              { giveaway_id := gid, user_id := uid, entered_at := now
                is_winner := false } :: s.entries })

/-- A burst of n submissions of the same (giveaway, participant) pair,
answered one after the other; the store serialises them, so the burst is
the n-fold iteration of submit. -/
def submitN (gid : Nat) (uid : Int) (roles : List Int) (now : Nat) :
    Nat → StoreState → List EntryOutcome × StoreState
  | 0, s => ([], s)
  | n + 1, s =>
      let first := submit s gid uid roles now
      let rest := submitN gid uid roles now n first.2
      (first.1 :: rest.1, rest.2)

/-- Modelled from the spec: compareAndSetStatus(id, expected, new) of
the Giveaway Store (section 4.1), the single primitive all transitions
use; missing from the repository snapshot.  Returns false, leaving the
store untouched, when the giveaway is absent or its current status
differs from the expected one. -/
def casStatus (s : StoreState) (gid : Nat) (expected newStatus : String) :
    Bool × StoreState :=
  match s.giveaways.find? (fun g => g.id == gid) with
  | none => (false, s)
  | some g =>
      if g.status == expected then
        (true,
          { s with
            giveaways :=
              s.giveaways.map fun h =>
                if h.id == gid then { h with status := newStatus } else h })
      else (false, s)

/-- The distinct participants holding an entry for the giveaway, read
off the GiveawayEntries rows. -/
def entrantIds (s : StoreState) (gid : Nat) : List Int :=
  (s.entries.filter (fun e => e.giveaway_id == gid)).map (fun e => e.user_id)

/-- Modelled from the spec: the winner set a finalize of this giveaway
commits, computed by the Winner Selector over the current entrants. -/
def selectedWinners (s : StoreState) (gid : Nat) (g : Giveaway)
    (rng : Nat → Nat) : List Int :=
  select (entrantIds s gid) g.winner_count.toNat rng

/-- The store after the atomic finalize commit: status moved to ended,
the is_winner flag of the winning entries set, the WinnerRecord rows
appended - all in one unit. -/
def commitFinalize (s : StoreState) (gid : Nat) (g : Giveaway)
    (rng : Nat → Nat) (now : Nat) : StoreState :=
  { s with
    giveaways :=
      s.giveaways.map fun h =>
        if h.id == gid then { h with status := "ended" } else h
    entries :=
      s.entries.map fun e =>
        if e.giveaway_id == gid && decide (e.user_id ∈ selectedWinners s gid g rng) then
          { e with is_winner := true }
        else e
    winners :=
      s.winners ++ (selectedWinners s gid g rng).map fun u =>
        { giveaway_id := gid, user_id := u, announced_at := now } }

/-- Modelled from the spec: the finalize sequence (sections 4.3 and 5),
missing from the repository snapshot.  Gated by the status compare
against active - the schema admits no separate intermediate status, so
the commit moves an active giveaway directly to ended - and committing
winner selection, WinnerRecord persistence and the status change as one
atomic unit.  A giveaway no longer active answers StateConflict and the
store is untouched. -/
def finalize (s : StoreState) (gid : Nat) (rng : Nat → Nat) (now : Nat) :
    FinalizeOutcome × StoreState :=
  match s.giveaways.find? (fun g => g.id == gid) with
  | none => (FinalizeOutcome.NotFound, s)
  | some g =>
      if g.status == "active" then
        (FinalizeOutcome.Finalized (selectedWinners s gid g rng),
          commitFinalize s gid g rng now)
      else (FinalizeOutcome.StateConflict, s)

/-- Modelled from the spec: the early-end request endNow(id) (section
6) drives the same finalize sequence as the sweep; missing from the
repository snapshot. -/
def endNowOp (s : StoreState) (gid : Nat) (rng : Nat → Nat) (now : Nat) :
    FinalizeOutcome × StoreState :=
  finalize s gid rng now

/-- Modelled from the spec: the finalize step the periodic sweep
performs for an active giveaway whose end_at has passed (section 4.3);
missing from the repository snapshot. -/
def sweepFinalize (s : StoreState) (gid : Nat) (rng : Nat → Nat) (now : Nat) :
    FinalizeOutcome × StoreState :=
  finalize s gid rng now

/-- DELETE /giveaways/:id as reachable from the GiveawayManager delete
button: the row is physically removed, the dependent GiveawayEntries
and GiveawayWinners rows going with it per the ON DELETE CASCADE
clauses of schema.sql. -/
def deleteGiveawayOp (s : StoreState) (gid : Nat) : StoreState :=
  { s with
    giveaways := s.giveaways.filter (fun g => !(g.id == gid))
    entries := s.entries.filter (fun e => !(e.giveaway_id == gid))
    winners := s.winners.filter (fun w => !(w.giveaway_id == gid)) }

/-- One atomic operation of the public interface against the store:
create, submit, the sweep activation CAS, the two cancel CASes, a
finalize (sweep-driven or endNow-driven), or a delete. -/
inductive Step : StoreState → StoreState → Prop where
  | create (sp : GiveawaySpecIn) (s : StoreState) :
      Step s (createGiveaway sp s).2
  | submitStep (gid : Nat) (uid : Int) (roles : List Int) (now : Nat)
      (s : StoreState) : Step s (submit s gid uid roles now).2
  | activate (gid : Nat) (s : StoreState) :
      Step s (casStatus s gid "scheduled" "active").2
  | cancelScheduled (gid : Nat) (s : StoreState) :
      Step s (casStatus s gid "scheduled" "cancelled").2
  | cancelActive (gid : Nat) (s : StoreState) :
      Step s (casStatus s gid "active" "cancelled").2
  | finalizeStep (gid : Nat) (rng : Nat → Nat) (now : Nat) (s : StoreState) :
      Step s (finalize s gid rng now).2
  | deleteStep (gid : Nat) (s : StoreState) :
      Step s (deleteGiveawayOp s gid)

/-- A store state reachable from the empty store through the public
interface. -/
def Reachable (s : StoreState) : Prop :=
  Relation.ReflTransGen Step initialStore s

/-- Terminal status per the design glossary: ended or cancelled.
Stated from the words of the design document, for comparison with the
predicates of the code. -/
def specTerminalStatus (st : String) : Bool :=
  st == "ended" || st == "cancelled"

/-! ## Concrete fixtures used by closed statements -/

/-- An active giveaway with an open window, as a concrete input. -/
def gOpen : Giveaway :=
  { id := 1, channel_id := 5, prize := "Nitro", winner_count := 1,
    status := "active", start_at := 100, end_at := 200,
    required_role_id := none, max_entries_per_user := 1,
    description := none }

/-- A store holding just the active giveaway. -/
def sOpen : StoreState :=
  { giveaways := [gOpen], entries := [], winners := [], nextId := 2 }

/-- The single entry of participant 7 in the active giveaway. -/
def entry7 : Entry :=
  { giveaway_id := 1, user_id := 7, entered_at := 150, is_winner := false }

/-- The same store with one entry recorded for participant 7. -/
def sEntered : StoreState :=
  { giveaways := [gOpen], entries := [entry7], winners := [], nextId := 2 }

/-- A deterministic stand-in random source. -/
def idRng : Nat → Nat := fun n => n

/-- The store after the first finalize of the entered giveaway. -/
def sFinal : StoreState := (finalize sEntered 1 idRng 300).2

/-- A scheduled (non-terminal) giveaway. -/
def gSched : Giveaway :=
  { id := 1, channel_id := 5, prize := "Nitro", winner_count := 1,
    status := "scheduled", start_at := 100, end_at := 200,
    required_role_id := none, max_entries_per_user := 1,
    description := none }

/-- A store holding just the scheduled giveaway. -/
def sSched : StoreState :=
  { giveaways := [gSched], entries := [], winners := [], nextId := 2 }

/-- A creation payload carrying a negative max_entries_per_user. -/
def spNeg : GiveawaySpecIn :=
  { prize := "p", winner_count := 1, channel_id := 1, start_at := 0,
    end_at := 10, description := none, required_role_id := none,
    max_entries_per_user := some (-3) }

/-- A creation payload omitting max_entries_per_user. -/
def spOmit : GiveawaySpecIn :=
  { prize := "p", winner_count := 1, channel_id := 1, start_at := 0,
    end_at := 10, description := none, required_role_id := none,
    max_entries_per_user := none }

/-- A creation payload with an empty time window (end equals start). -/
def spBadTime : GiveawaySpecIn :=
  { prize := "p", winner_count := 1, channel_id := 1, start_at := 5,
    end_at := 5, description := none, required_role_id := none,
    max_entries_per_user := none }

/-- A fully valid dialog form. -/
def fValid : FormData :=
  { prize := "Nitro", winner_count := 1, channel_id := "5",
    start_at := 100, end_at := 200, description := "",
    required_role_id := "", max_entries_per_user := 1 }

end Deckhand

namespace Deckhand

lemma drawLoop_subset (rng : Nat → Nat) :
    ∀ (k step : Nat) (pool : List Int), drawLoop rng k step pool ⊆ pool := by
  intro k
  induction k with
  | zero => intro step pool; simp [drawLoop]
  | succ k ih =>
      intro step pool
      match pool with
      | [] => simp [drawLoop]
      | p :: ps =>
          simp only [drawLoop]
          intro x hx
          rcases List.mem_cons.mp hx with h | h
          · subst h
            have hlen : rng step % (p :: ps).length < (p :: ps).length :=
              Nat.mod_lt _ (by simp)
            rw [List.getD_eq_getElem _ _ hlen]
            exact List.getElem_mem hlen
          · exact List.erase_subset _ _ (ih (step + 1) _ h)

lemma drawLoop_length (rng : Nat → Nat) :
    ∀ (k step : Nat) (pool : List Int), k ≤ pool.length →
      (drawLoop rng k step pool).length = k := by
  intro k
  induction k with
  | zero => intro step pool _; simp [drawLoop]
  | succ k ih =>
      intro step pool hk
      match pool with
      | [] => simp at hk
      | p :: ps =>
          simp only [drawLoop]
          have hlen : rng step % (p :: ps).length < (p :: ps).length :=
            Nat.mod_lt _ (by simp)
          have hmem : (p :: ps).getD (rng step % (p :: ps).length) p ∈ p :: ps := by
            rw [List.getD_eq_getElem _ _ hlen]
            exact List.getElem_mem hlen
          have herase : ((p :: ps).erase ((p :: ps).getD (rng step % (p :: ps).length) p)).length
              = ps.length := by
            rw [List.length_erase_of_mem hmem]
            simp
          rw [List.length_cons, ih (step + 1) _ (by rw [herase]; exact Nat.le_of_succ_le_succ (by simpa using hk))]

lemma drawLoop_nodup (rng : Nat → Nat) :
    ∀ (k step : Nat) (pool : List Int), pool.Nodup →
      (drawLoop rng k step pool).Nodup := by
  intro k
  induction k with
  | zero => intro step pool _; simp [drawLoop]
  | succ k ih =>
      intro step pool hnd
      match pool with
      | [] => simp [drawLoop]
      | p :: ps =>
          simp only [drawLoop]
          refine List.nodup_cons.mpr ⟨?_, ?_⟩
          · intro hmem
            have hsub := drawLoop_subset rng k (step + 1)
              ((p :: ps).erase ((p :: ps).getD (rng step % (p :: ps).length) p)) hmem
            exact hnd.not_mem_erase hsub
          · exact ih (step + 1) _ (hnd.erase _)

end Deckhand

namespace Deckhand

lemma sortedIds_nodup (entrants : List Int) :
    (sortedEntrants entrants).Nodup :=
  ((List.perm_insertionSort _ _).nodup_iff).mpr (List.nodup_dedup entrants)

lemma length_sortedEntrants (entrants : List Int) :
    (sortedEntrants entrants).length = entrants.dedup.length :=
  List.length_insertionSort _ _

lemma mem_sortedIds (entrants : List Int) (x : Int) :
    x ∈ sortedEntrants entrants ↔ x ∈ entrants := by
  unfold sortedEntrants
  rw [List.mem_insertionSort, List.mem_dedup]

lemma select_nil (w : Nat) (rng : Nat → Nat) : select [] w rng = [] := by
  simp [select, sortedEntrants]

lemma select_subset (entrants : List Int) (w : Nat) (rng : Nat → Nat) :
    ∀ x ∈ select entrants w rng, x ∈ entrants := by
  intro x hx
  unfold select at hx
  split at hx
  · exact (mem_sortedIds entrants x).mp hx
  · exact (mem_sortedIds entrants x).mp (drawLoop_subset rng w 0 _ hx)

lemma select_nodup (entrants : List Int) (w : Nat) (rng : Nat → Nat) :
    (select entrants w rng).Nodup := by
  unfold select
  split
  · exact sortedIds_nodup entrants
  · exact drawLoop_nodup rng w 0 _ (sortedIds_nodup entrants)

lemma select_eq_all (entrants : List Int) (w : Nat) (rng : Nat → Nat)
    (h : entrants.dedup.length ≤ w) :
    ∀ x, x ∈ select entrants w rng ↔ x ∈ entrants := by
  intro x
  unfold select
  rw [if_pos (by rw [length_sortedEntrants]; exact h)]
  exact mem_sortedIds entrants x

lemma select_length_of_lt (entrants : List Int) (w : Nat) (rng : Nat → Nat)
    (h : w < entrants.dedup.length) :
    (select entrants w rng).length = w := by
  unfold select
  rw [if_neg (by rw [length_sortedEntrants]; exact Nat.not_le.mpr h)]
  exact drawLoop_length rng w 0 _
    (by rw [length_sortedEntrants]; exact Nat.le_of_lt h)

end Deckhand

namespace Deckhand

lemma submit_of_find_none {s : StoreState} {gid : Nat} (uid : Int)
    (roles : List Int) (now : Nat)
    (h : s.giveaways.find? (fun g => g.id == gid) = none) :
    submit s gid uid roles now = (EntryOutcome.GiveawayNotOpen, s) := by
  simp [submit, h]

lemma submit_of_not_active {s : StoreState} {gid : Nat} {g : Giveaway}
    (uid : Int) (roles : List Int) {now : Nat}
    (hfind : s.giveaways.find? (fun g' => g'.id == gid) = some g)
    (hact : isGiveawayActive g now = false) :
    submit s gid uid roles now = (EntryOutcome.GiveawayNotOpen, s) := by
  simp [submit, hfind, hact]

lemma submit_of_not_eligible {s : StoreState} {gid : Nat} {g : Giveaway}
    (uid : Int) {roles : List Int} {now : Nat}
    (hfind : s.giveaways.find? (fun g' => g'.id == gid) = some g)
    (hact : isGiveawayActive g now = true)
    (hrole : roleOk g roles = false) :
    submit s gid uid roles now = (EntryOutcome.NotEligible, s) := by
  simp [submit, hfind, hact, hrole]

lemma submit_of_duplicate {s : StoreState} {gid : Nat} {g : Giveaway}
    {uid : Int} {roles : List Int} {now : Nat}
    (hfind : s.giveaways.find? (fun g' => g'.id == gid) = some g)
    (hact : isGiveawayActive g now = true)
    (hrole : roleOk g roles = true)
    (hdup : hasEntry s gid uid = true) :
    submit s gid uid roles now = (EntryOutcome.AlreadyEntered, s) := by
  simp [submit, hfind, hact, hrole, hdup]

lemma submit_of_fresh {s : StoreState} {gid : Nat} {g : Giveaway}
    {uid : Int} {roles : List Int} {now : Nat}
    (hfind : s.giveaways.find? (fun g' => g'.id == gid) = some g)
    (hact : isGiveawayActive g now = true)
    (hrole : roleOk g roles = true)
    (hnew : hasEntry s gid uid = false) :
    submit s gid uid roles now =
      (EntryOutcome.Accepted,
        { s with
          entries :=
            { giveaway_id := gid, user_id := uid, entered_at := now
              is_winner := false } :: s.entries }) := by
  simp [submit, hfind, hact, hrole, hnew]

lemma submit_unchanged_of_hasEntry {s : StoreState} {gid : Nat} {uid : Int}
    (roles : List Int) (now : Nat) (hdup : hasEntry s gid uid = true) :
    (submit s gid uid roles now).2 = s ∧
      (submit s gid uid roles now).1 ≠ EntryOutcome.Accepted := by
  unfold submit
  cases hfind : s.giveaways.find? (fun g => g.id == gid) with
  | none => exact ⟨rfl, by simp⟩
  | some g =>
      by_cases hact : isGiveawayActive g now
      · by_cases hrole : roleOk g roles
        · simp [hact, hrole, hdup]
        · simp [hact, hrole]
      · simp [hact]

end Deckhand

namespace Deckhand

lemma hasEntry_cons_self (s : StoreState) (gid : Nat) (uid : Int) (now : Nat) :
    hasEntry
      { s with
        entries :=
          { giveaway_id := gid, user_id := uid, entered_at := now
            is_winner := false } :: s.entries } gid uid = true := by
  simp [hasEntry]

lemma submitN_count_zero_of_hasEntry {s : StoreState} {gid : Nat} {uid : Int}
    (roles : List Int) (now : Nat) (hdup : hasEntry s gid uid = true) :
    ∀ n, (submitN gid uid roles now n s).1.count EntryOutcome.Accepted = 0 ∧
      (submitN gid uid roles now n s).2 = s := by
  intro n
  induction n with
  | zero => simp [submitN]
  | succ n ih =>
      obtain ⟨hsame, hne⟩ := submit_unchanged_of_hasEntry roles now hdup
      simp only [submitN, hsame]
      refine ⟨?_, ih.2⟩
      rw [List.count_cons_of_ne (Ne.symm hne), ih.1]

lemma submitN_count_one {s : StoreState} {gid : Nat} {g : Giveaway}
    {uid : Int} {roles : List Int} {now : Nat}
    (hfind : s.giveaways.find? (fun g' => g'.id == gid) = some g)
    (hact : isGiveawayActive g now = true)
    (hrole : roleOk g roles = true)
    (hnew : hasEntry s gid uid = false) :
    ∀ n, 0 < n →
      (submitN gid uid roles now n s).1.count EntryOutcome.Accepted = 1 := by
  intro n hn
  match n, hn with
  | n + 1, _ =>
      have hfirst := submit_of_fresh hfind hact hrole hnew
      simp only [submitN, hfirst]
      have hdup := hasEntry_cons_self s gid uid now
      rw [List.count_cons_self,
        (submitN_count_zero_of_hasEntry roles now hdup n).1]

end Deckhand

namespace Deckhand

lemma inv_create (sp : GiveawaySpecIn) (s : StoreState)
    (h : entriesUnique s ∧ statusesOk s) :
    entriesUnique (createGiveaway sp s).2 ∧ statusesOk (createGiveaway sp s).2 := by
  unfold createGiveaway
  split
  · refine ⟨h.1, ?_⟩
    intro g hg
    rcases List.mem_cons.mp hg with rfl | hg'
    · rfl
    · exact h.2 g hg'
  · exact h

lemma inv_submit (gid : Nat) (uid : Int) (roles : List Int) (now : Nat)
    (s : StoreState) (h : entriesUnique s ∧ statusesOk s) :
    entriesUnique (submit s gid uid roles now).2 ∧
      statusesOk (submit s gid uid roles now).2 := by
  unfold submit
  cases hfind : s.giveaways.find? (fun g => g.id == gid) with
  | none => exact h
  | some g =>
      cases hact : isGiveawayActive g now with
      | false => simp only [hact, Bool.not_false, if_true]; exact h
      | true =>
          cases hrole : roleOk g roles with
          | false =>
              simp only [hact, hrole, Bool.not_true, Bool.not_false,
                Bool.false_eq_true, if_false, if_true]
              exact h
          | true =>
              cases hdup : hasEntry s gid uid with
              | true =>
                  simp only [hact, hrole, hdup, Bool.not_true,
                    Bool.false_eq_true, if_false, if_true]
                  exact h
              | false =>
                  simp only [hact, hrole, hdup, Bool.not_true,
                    Bool.false_eq_true, if_false]
                  refine ⟨?_, h.2⟩
                  refine List.nodup_cons.mpr ⟨?_, h.1⟩
                  intro hmem
                  rcases List.mem_map.mp hmem with ⟨e, he, hkey⟩
                  have hgid : e.giveaway_id = gid := congrArg Prod.fst hkey
                  have huid : e.user_id = uid := congrArg Prod.snd hkey
                  have hany : s.entries.any
                      (fun e => e.giveaway_id == gid && e.user_id == uid) = true :=
                    List.any_eq_true.mpr ⟨e, he, by simp [hgid, huid]⟩
                  have : hasEntry s gid uid = true := hany
                  rw [this] at hdup
                  exact absurd hdup (by simp)

lemma inv_casStatus (gid : Nat) (expected newStatus : String)
    (hnew : statusAllowed newStatus = true) (s : StoreState)
    (h : entriesUnique s ∧ statusesOk s) :
    entriesUnique (casStatus s gid expected newStatus).2 ∧
      statusesOk (casStatus s gid expected newStatus).2 := by
  unfold casStatus
  cases hfind : s.giveaways.find? (fun g => g.id == gid) with
  | none => exact h
  | some g =>
      by_cases hst : g.status == expected
      · simp only [hst, if_pos]
        refine ⟨h.1, ?_⟩
        intro x hx
        rcases List.mem_map.mp hx with ⟨a, ha, rfl⟩
        by_cases hid : a.id == gid
        · simp only [hid, if_pos]
          exact hnew
        · simp only [hid, if_neg, Bool.false_eq_true, not_false_iff]
          exact h.2 a ha
      · simp only [hst]
        exact h

lemma entryKey_flag (ws : List Int) (gid : Nat) (e : Entry) :
    entryKey
      (if e.giveaway_id == gid && decide (e.user_id ∈ ws) then
        { e with is_winner := true }
      else e) = entryKey e := by
  split <;> rfl

lemma inv_finalize (gid : Nat) (rng : Nat → Nat) (now : Nat) (s : StoreState)
    (h : entriesUnique s ∧ statusesOk s) :
    entriesUnique (finalize s gid rng now).2 ∧
      statusesOk (finalize s gid rng now).2 := by
  unfold finalize
  cases hfind : s.giveaways.find? (fun g => g.id == gid) with
  | none => exact h
  | some g =>
      by_cases hst : g.status == "active"
      · simp only [hst, if_pos, commitFinalize]
        constructor
        · show (List.map entryKey (List.map _ s.entries)).Nodup
          rw [List.map_map]
          have hcomp :
              (entryKey ∘ fun e : Entry =>
                if e.giveaway_id == gid &&
                    decide (e.user_id ∈ selectedWinners s gid g rng) then
                  { e with is_winner := true }
                else e) = entryKey :=
            funext fun e => entryKey_flag _ gid e
          rw [hcomp]
          exact h.1
        · intro x hx
          rcases List.mem_map.mp hx with ⟨a, ha, rfl⟩
          by_cases hid : a.id == gid
          · simp only [hid, if_pos]
            rfl
          · simp only [hid, if_neg, Bool.false_eq_true, not_false_iff]
            exact h.2 a ha
      · simp only [hst]
        exact h

lemma inv_delete (gid : Nat) (s : StoreState)
    (h : entriesUnique s ∧ statusesOk s) :
    entriesUnique (deleteGiveawayOp s gid) ∧
      statusesOk (deleteGiveawayOp s gid) := by
  constructor
  · exact ((List.filter_sublist s.entries).map entryKey).nodup h.1
  · intro g hg
    exact h.2 g (List.mem_of_mem_filter hg)

lemma reachable_inv {s : StoreState} (h : Reachable s) :
    entriesUnique s ∧ statusesOk s := by
  induction h with
  | refl =>
      exact ⟨List.nodup_nil, fun g hg => absurd hg (List.not_mem_nil g)⟩
  | tail _ hstep ih =>
      cases hstep with
      | create sp => exact inv_create sp _ ih
      | submitStep gid uid roles now => exact inv_submit gid uid roles now _ ih
      | activate gid => exact inv_casStatus gid "scheduled" "active" rfl _ ih
      | cancelScheduled gid =>
          exact inv_casStatus gid "scheduled" "cancelled" rfl _ ih
      | cancelActive gid => exact inv_casStatus gid "active" "cancelled" rfl _ ih
      | finalizeStep gid rng now => exact inv_finalize gid rng now _ ih
      | deleteStep gid => exact inv_delete gid _ ih

end Deckhand

namespace Deckhand

lemma find?_update_status {l : List Giveaway} {gid : Nat} {g : Giveaway}
    (st : String)
    (hfind : l.find? (fun g' => g'.id == gid) = some g) :
    (l.map fun h => if h.id == gid then { h with status := st } else h).find?
      (fun g' => g'.id == gid) = some { g with status := st } := by
  induction l with
  | nil => simp at hfind
  | cons a l ih =>
      by_cases hid : (a.id == gid) = true
      · rw [List.find?_cons_of_pos (p := fun g' : Giveaway => g'.id == gid) _ hid] at hfind
        have ha : a = g := Option.some.inj hfind
        subst ha
        have hid2 : ((if a.id == gid then { a with status := st } else a).id == gid)
            = true := by
          rw [if_pos hid]
          exact hid
        rw [List.map_cons, List.find?_cons_of_pos (p := fun g' : Giveaway => g'.id == gid) _ hid2, if_pos hid]
      · rw [List.find?_cons_of_neg (p := fun g' : Giveaway => g'.id == gid) _ hid] at hfind
        have hid2 : ¬ ((if a.id == gid then { a with status := st } else a).id == gid)
            = true := by
          rw [if_neg hid]
          exact hid
        rw [List.map_cons, List.find?_cons_of_neg (p := fun g' : Giveaway => g'.id == gid) _ hid2]
        exact ih hfind

lemma finalize_eq_of_none {s : StoreState} {gid : Nat}
    (rng : Nat → Nat) (now : Nat)
    (hfind : s.giveaways.find? (fun g' => g'.id == gid) = none) :
    finalize s gid rng now = (FinalizeOutcome.NotFound, s) := by
  unfold finalize
  rw [hfind]

lemma finalize_eq_of_active {s : StoreState} {gid : Nat} {g : Giveaway}
    (rng : Nat → Nat) (now : Nat)
    (hfind : s.giveaways.find? (fun g' => g'.id == gid) = some g)
    (hst : (g.status == "active") = true) :
    finalize s gid rng now =
      (FinalizeOutcome.Finalized (selectedWinners s gid g rng),
        commitFinalize s gid g rng now) := by
  unfold finalize
  rw [hfind]
  exact if_pos hst

lemma finalize_eq_of_inactive {s : StoreState} {gid : Nat} {g : Giveaway}
    (rng : Nat → Nat) (now : Nat)
    (hfind : s.giveaways.find? (fun g' => g'.id == gid) = some g)
    (hst : ¬ (g.status == "active") = true) :
    finalize s gid rng now = (FinalizeOutcome.StateConflict, s) := by
  unfold finalize
  rw [hfind]
  exact if_neg hst

lemma finalize_after_commit {s s' : StoreState} {gid : Nat} {rng : Nat → Nat}
    {now : Nat} {ws : List Int}
    (h : finalize s gid rng now = (FinalizeOutcome.Finalized ws, s'))
    (rng' : Nat → Nat) (now' : Nat) :
    finalize s' gid rng' now' = (FinalizeOutcome.StateConflict, s') := by
  cases hfind : s.giveaways.find? (fun g => g.id == gid) with
  | none =>
      rw [finalize_eq_of_none rng now hfind] at h
      exact absurd h (by simp)
  | some g =>
      by_cases hst : (g.status == "active") = true
      · rw [finalize_eq_of_active rng now hfind hst] at h
        rw [Prod.mk.injEq] at h
        obtain ⟨_, hs'⟩ := h
        subst hs'
        have hfind' : (commitFinalize s gid g rng now).giveaways.find?
            (fun g' => g'.id == gid) = some { g with status := "ended" } :=
          find?_update_status "ended" hfind
        refine finalize_eq_of_inactive rng' now' hfind' ?_
        simp
      · rw [finalize_eq_of_inactive rng now hfind hst] at h
        exact absurd h (by simp)

end Deckhand

namespace Deckhand

/-- C1: the winner selection, given entrant identifiers and a positive
winner count w, returns the empty set on zero entrants, the entire
entrant set when the distinct entrant count n satisfies n ≤ w, and
otherwise a duplicate-free subset of the entrants of size exactly w. -/
theorem winner_selection_spec (entrants : List Int) (w : Nat)
    (rng : Nat → Nat) (hw : 0 < w) :
    (entrants = [] → select entrants w rng = []) ∧
    (entrants.dedup.length ≤ w →
      ((select entrants w rng).Nodup ∧
        ∀ x, x ∈ select entrants w rng ↔ x ∈ entrants)) ∧
    (w < entrants.dedup.length →
      ((select entrants w rng).length = w ∧ (select entrants w rng).Nodup ∧
        ∀ x ∈ select entrants w rng, x ∈ entrants)) := by
  refine ⟨fun h => ?_,
    fun h => ⟨select_nodup _ _ _, select_eq_all _ _ _ h⟩,
    fun h => ⟨select_length_of_lt _ _ _ h, select_nodup _ _ _,
      select_subset _ _ _⟩⟩
  subst h
  exact select_nil w rng

theorem winner_selection_spec_witness :
    0 < 2 ∧
    ((([5, 3, 3, 9] : List Int) = [] →
        select [5, 3, 3, 9] 2 (fun n => n) = []) ∧
      (([5, 3, 3, 9] : List Int).dedup.length ≤ 2 →
        ((select [5, 3, 3, 9] 2 (fun n => n)).Nodup ∧
          ∀ x, x ∈ select [5, 3, 3, 9] 2 (fun n => n) ↔
            x ∈ ([5, 3, 3, 9] : List Int))) ∧
      (2 < ([5, 3, 3, 9] : List Int).dedup.length →
        ((select [5, 3, 3, 9] 2 (fun n => n)).length = 2 ∧
          (select [5, 3, 3, 9] 2 (fun n => n)).Nodup ∧
          ∀ x ∈ select [5, 3, 3, 9] 2 (fun n => n),
            x ∈ ([5, 3, 3, 9] : List Int)))) :=
  ⟨by decide, winner_selection_spec [5, 3, 3, 9] 2 (fun n => n) (by decide)⟩

/-- C2 counterexample: the status CHECK constraint of the Giveaways
table admits only four values and rejects "ending", so a giveaway row
carrying status "ending" violates the schema - the claimed five-value
status range with a storable "ending" is false of this schema. -/
theorem status_ending_not_storable :
    statusAllowed "ending" = false ∧
    giveawayRowChecks
      { id := 1, channel_id := 1, prize := "p", winner_count := 1,
        status := "ending", start_at := 0, end_at := 1,
        required_role_id := none, max_entries_per_user := 1,
        description := none } = false := by
  exact ⟨by decide, by decide⟩

/-- C2 amended: the status field ranges over exactly the four schema
values scheduled, active, ended, cancelled - every reachable store
satisfies the CHECK constraint and "ending" is not an allowed value -
and finalize commits an active giveaway directly to ended, atomically
with winner persistence, with no intermediate status. -/
theorem status_value_range (s : StoreState) (h : Reachable s) :
    (∀ g ∈ s.giveaways, statusAllowed g.status = true) ∧
    statusAllowed "ending" = false ∧
    (∀ gid rng now ws s',
      finalize s gid rng now = (FinalizeOutcome.Finalized ws, s') →
        (s'.giveaways.find? (fun g' => g'.id == gid)).map Giveaway.status =
          some "ended") := by
  refine ⟨(reachable_inv h).2, by decide, ?_⟩
  intro gid rng now ws s' hfin
  cases hfind : s.giveaways.find? (fun g => g.id == gid) with
  | none =>
      rw [finalize_eq_of_none rng now hfind] at hfin
      exact absurd hfin (by simp)
  | some g =>
      by_cases hst : (g.status == "active") = true
      · rw [finalize_eq_of_active rng now hfind hst] at hfin
        rw [Prod.mk.injEq] at hfin
        obtain ⟨_, hs'⟩ := hfin
        subst hs'
        have hup := find?_update_status (l := s.giveaways) "ended" hfind
        show ((s.giveaways.map fun h =>
          if h.id == gid then { h with status := "ended" } else h).find?
            (fun g' => g'.id == gid)).map Giveaway.status = some "ended"
        rw [hup]
        rfl
      · rw [finalize_eq_of_inactive rng now hfind hst] at hfin
        exact absurd hfin (by simp)

theorem status_value_range_witness :
    (∀ g ∈ initialStore.giveaways, statusAllowed g.status = true) ∧
    statusAllowed "ending" = false ∧
    (∀ gid rng now ws s',
      finalize initialStore gid rng now = (FinalizeOutcome.Finalized ws, s') →
        (s'.giveaways.find? (fun g' => g'.id == gid)).map Giveaway.status =
          some "ended") :=
  status_value_range initialStore Relation.ReflTransGen.refl

end Deckhand

namespace Deckhand

/-- C3: in every reachable store state there is at most one entry per
(giveaway id, participant id) pair; a submission by a participant who
already holds an entry leaves the stored entries unchanged and is never
Accepted, returning AlreadyEntered when the open and eligibility gates
pass; and of a burst of n duplicate submissions exactly one is
Accepted. -/
theorem entry_uniqueness (s : StoreState) (h : Reachable s) :
    entriesUnique s ∧
    (∀ gid uid roles now, hasEntry s gid uid = true →
      (submit s gid uid roles now).2 = s ∧
      (submit s gid uid roles now).1 ≠ EntryOutcome.Accepted) ∧
    (∀ gid uid roles now g,
      s.giveaways.find? (fun g' => g'.id == gid) = some g →
      isGiveawayActive g now = true → roleOk g roles = true →
      hasEntry s gid uid = true →
      submit s gid uid roles now = (EntryOutcome.AlreadyEntered, s)) ∧
    (∀ gid uid roles now g,
      s.giveaways.find? (fun g' => g'.id == gid) = some g →
      isGiveawayActive g now = true → roleOk g roles = true →
      hasEntry s gid uid = false →
      ∀ n, 0 < n →
        (submitN gid uid roles now n s).1.count EntryOutcome.Accepted = 1) := by
  refine ⟨(reachable_inv h).1, ?_, ?_, ?_⟩
  · intro gid uid roles now hdup
    exact submit_unchanged_of_hasEntry roles now hdup
  · intro gid uid roles now g hfind hact hrole hdup
    exact submit_of_duplicate hfind hact hrole hdup
  · intro gid uid roles now g hfind hact hrole hnew n hn
    exact submitN_count_one hfind hact hrole hnew n hn

theorem entry_uniqueness_witness :
    entriesUnique initialStore ∧
    (∀ gid uid roles now, hasEntry initialStore gid uid = true →
      (submit initialStore gid uid roles now).2 = initialStore ∧
      (submit initialStore gid uid roles now).1 ≠ EntryOutcome.Accepted) ∧
    (∀ gid uid roles now g,
      initialStore.giveaways.find? (fun g' => g'.id == gid) = some g →
      isGiveawayActive g now = true → roleOk g roles = true →
      hasEntry initialStore gid uid = true →
      submit initialStore gid uid roles now =
        (EntryOutcome.AlreadyEntered, initialStore)) ∧
    (∀ gid uid roles now g,
      initialStore.giveaways.find? (fun g' => g'.id == gid) = some g →
      isGiveawayActive g now = true → roleOk g roles = true →
      hasEntry initialStore gid uid = false →
      ∀ n, 0 < n →
        (submitN gid uid roles now n initialStore).1.count
          EntryOutcome.Accepted = 1) :=
  entry_uniqueness initialStore Relation.ReflTransGen.refl

/-- C4: creating a giveaway from a spec violating the data-model
invariants - end_at not strictly after start_at, or a non-positive
winner_count - fails with ValidationError and persists nothing, the
store being returned unchanged; the management dialog likewise refuses
to send a create or update request when the end time is not after the
start time. -/
theorem create_validation (sp : GiveawaySpecIn) (s : StoreState)
    (hbad : ¬ sp.start_at < sp.end_at ∨ ¬ 0 < sp.winner_count) :
    ((createGiveaway sp s).1 = Except.error CreateError.ValidationError ∧
      (createGiveaway sp s).2 = s) ∧
    (∀ editing f, ¬ f.start_at < f.end_at →
      handleSubmitAction editing f = FormAction.noSend) := by
  constructor
  · have hcond :
        (decide (0 < sp.winner_count) && decide (sp.start_at < sp.end_at))
          = false := by
      rcases hbad with h | h <;> simp [h]
    unfold createGiveaway
    rw [if_neg (by rw [hcond]; simp)]
    exact ⟨rfl, rfl⟩
  · intro editing f hf
    unfold handleSubmitAction
    by_cases h1 : (jsTrim f.prize == "") = true
    · rw [if_pos h1]
    · rw [if_neg h1]
      by_cases h2 : (f.channel_id == "") = true
      · rw [if_pos h2]
      · rw [if_neg h2]
        rw [if_pos (by simpa using Nat.le_of_not_lt hf)]

theorem create_validation_witness :
    (¬ spBadTime.start_at < spBadTime.end_at ∨ ¬ 0 < spBadTime.winner_count) ∧
    ((createGiveaway spBadTime initialStore).1 =
        Except.error CreateError.ValidationError ∧
      (createGiveaway spBadTime initialStore).2 = initialStore) ∧
    (∀ editing f, ¬ f.start_at < f.end_at →
      handleSubmitAction editing f = FormAction.noSend) :=
  ⟨Or.inl (by decide),
    create_validation spBadTime initialStore (Or.inl (by decide))⟩

end Deckhand

namespace Deckhand

/-- C5 counterexample: the activity gate used by the code compares the
current time to end_at inclusively, so a submission at exactly end_at
is Accepted, not rejected - the claimed half-open window fails. -/
theorem submit_at_end_at_accepted :
    gOpen.end_at = 200 ∧
    isGiveawayActive gOpen 200 = true ∧
    (submit sOpen 1 7 [] 200).1 = EntryOutcome.Accepted := by
  exact ⟨rfl, by decide, by decide⟩

/-- C5 amended: submission returns Accepted exactly when, checked in
this order, the giveaway exists, the isGiveawayActive gate passes -
status is active and the current time lies in the closed window from
start_at to end_at, both endpoints included, so a submission at exactly
end_at is accepted - the required role, when set, is among the
submitted roles, and the participant holds no entry yet; each earlier
failing gate yields its own non-accepted outcome. -/
theorem submit_precondition_order (s : StoreState) (gid : Nat) (uid : Int)
    (roles : List Int) (now : Nat) :
    (s.giveaways.find? (fun g' => g'.id == gid) = none →
      submit s gid uid roles now = (EntryOutcome.GiveawayNotOpen, s)) ∧
    (∀ g, s.giveaways.find? (fun g' => g'.id == gid) = some g →
      (isGiveawayActive g now = false →
        submit s gid uid roles now = (EntryOutcome.GiveawayNotOpen, s)) ∧
      (isGiveawayActive g now = true → roleOk g roles = false →
        submit s gid uid roles now = (EntryOutcome.NotEligible, s)) ∧
      (isGiveawayActive g now = true → roleOk g roles = true →
        hasEntry s gid uid = true →
        submit s gid uid roles now = (EntryOutcome.AlreadyEntered, s)) ∧
      (isGiveawayActive g now = true → roleOk g roles = true →
        hasEntry s gid uid = false →
        submit s gid uid roles now =
          (EntryOutcome.Accepted,
            { s with
              entries :=
                { giveaway_id := gid, user_id := uid, entered_at := now,
                  is_winner := false } :: s.entries })) ∧
      (isGiveawayActive g now = true ↔
        (g.start_at ≤ now ∧ now ≤ g.end_at ∧ g.status = "active"))) := by
  refine ⟨fun hnone => submit_of_find_none uid roles now hnone, ?_⟩
  intro g hfind
  refine ⟨fun hact => submit_of_not_active uid roles hfind hact,
    fun hact hrole => submit_of_not_eligible uid hfind hact hrole,
    fun hact hrole hdup => submit_of_duplicate hfind hact hrole hdup,
    fun hact hrole hnew => submit_of_fresh hfind hact hrole hnew, ?_⟩
  simp [isGiveawayActive, and_assoc]

theorem submit_precondition_order_witness :
    submit sOpen 1 7 [] 150 = (EntryOutcome.Accepted, sEntered) :=
  ((submit_precondition_order sOpen 1 7 [] 150).2 gOpen (by decide)).2.2.2.1
    (by decide) (by decide) (by decide)

end Deckhand

namespace Deckhand

/-- C6: finalize is idempotent once committed - after a first finalize
has committed a winner set, a second finalize answers StateConflict,
returns the store exactly as the first commit left it, and appends no
second generation of WinnerRecord rows. -/
theorem finalize_idempotent (s s' : StoreState) (gid : Nat)
    (rng rng' : Nat → Nat) (now now' : Nat) (ws : List Int)
    (h : finalize s gid rng now = (FinalizeOutcome.Finalized ws, s')) :
    finalize s' gid rng' now' = (FinalizeOutcome.StateConflict, s') ∧
    (finalize s' gid rng' now').2.winners = s'.winners := by
  refine ⟨finalize_after_commit h rng' now', ?_⟩
  rw [finalize_after_commit h rng' now']

theorem finalize_idempotent_witness :
    finalize sFinal 1 idRng 301 = (FinalizeOutcome.StateConflict, sFinal) ∧
    (finalize sFinal 1 idRng 301).2.winners = sFinal.winners :=
  finalize_idempotent sEntered sFinal 1 idRng idRng 300 301 [7] (by decide)

/-- C7 counterexample: the delete control of the giveaway manager is
enabled for a scheduled - non-terminal - giveaway, and the delete
operation it triggers physically removes the record, so non-terminal
records are deletable through the public interface. -/
theorem delete_nonterminal_possible :
    deleteButtonDisabled "scheduled" = false ∧
    specTerminalStatus "scheduled" = false ∧
    (deleteGiveawayOp sSched 1).giveaways = [] ∧
    deleteGiveawayRequest 1 =
      { method := HttpMethod.DELETE, path := "/giveaways/1" } := by
  exact ⟨by decide, by decide, by decide, by decide⟩

/-- C7 amended: deletion through the public interface is blocked only
while the status is active - the disabled predicate of the delete
control is exactly status = active - and the delete operation
physically removes the targeted record whatever its status, so
scheduled (non-terminal) giveaways can be deleted; deletion is not
restricted to terminal records. -/
theorem delete_guard (st : String) (s : StoreState) (gid : Nat) :
    (deleteButtonDisabled st = true ↔ st = "active") ∧
    (∀ g, g ∈ (deleteGiveawayOp s gid).giveaways ↔
      g ∈ s.giveaways ∧ ¬ g.id = gid) := by
  constructor
  · simp [deleteButtonDisabled]
  · intro g
    simp [deleteGiveawayOp, List.mem_filter]

/-- C8 counterexample: a creation payload carrying
max_entries_per_user = -3 is accepted and the value is persisted as
given - the schema column has no CHECK clause and the form handler
passes negative parses through - so the claimed impossibility of
persisting a value at most 0 is false. -/
theorem max_entries_nonpositive_persistable :
    maxEntriesFormValue (some (-3)) = -3 ∧
    (createGiveaway spNeg initialStore).1 = Except.ok 1 ∧
    ((createGiveaway spNeg initialStore).2.giveaways.map
      (fun g => g.max_entries_per_user)) = [-3] ∧
    giveawayRowChecks (mkGiveawayRow 1 spNeg) = true := by
  exact ⟨by decide, rfl, by decide, by decide⟩

/-- C8 amended: max_entries_per_user defaults to 1 when the creation
payload omits it, and the form maps an unparsable or zero input to 1;
but the lower bound of 1 is not enforced - a non-zero parsed value,
negative ones included, passes through the form unchanged, and the
row-level checks of the schema are insensitive to the field, so a
giveaway with max_entries_per_user at most 0 can be created and
persisted. -/
theorem max_entries_default_not_enforced :
    (∀ gid sp, sp.max_entries_per_user = none →
      (mkGiveawayRow gid sp).max_entries_per_user = 1) ∧
    maxEntriesFormValue none = 1 ∧
    maxEntriesFormValue (some 0) = 1 ∧
    (∀ v : Int, ¬ v = 0 → maxEntriesFormValue (some v) = v) ∧
    (∀ (g : Giveaway) (v : Int),
      giveawayRowChecks { g with max_entries_per_user := v } =
        giveawayRowChecks g) := by
  refine ⟨?_, rfl, rfl, ?_, ?_⟩
  · intro gid sp h
    simp [mkGiveawayRow, h]
  · intro v hv
    simp [maxEntriesFormValue, hv]
  · intro g v
    rfl

theorem max_entries_default_not_enforced_witness :
    (mkGiveawayRow 1 spOmit).max_entries_per_user = 1 ∧
    maxEntriesFormValue (some (-3)) = -3 :=
  ⟨max_entries_default_not_enforced.1 1 spOmit (by decide),
    max_entries_default_not_enforced.2.2.2.1 (-3) (by decide)⟩

/-- C9: an explicit endNow and the natural sweep finalize racing on the
same active giveaway serialise through the same status gate: in either
interleaving the first one commits and the second observes
StateConflict - never two successes, never two failures. -/
theorem endNow_sweep_race (s : StoreState) (gid : Nat) (g : Giveaway)
    (rng1 rng2 : Nat → Nat) (now1 now2 : Nat)
    (hfind : s.giveaways.find? (fun g' => g'.id == gid) = some g)
    (hact : g.status = "active") :
    (∃ ws s', endNowOp s gid rng1 now1 = (FinalizeOutcome.Finalized ws, s') ∧
      sweepFinalize s' gid rng2 now2 = (FinalizeOutcome.StateConflict, s')) ∧
    (∃ ws s', sweepFinalize s gid rng2 now2 =
        (FinalizeOutcome.Finalized ws, s') ∧
      endNowOp s' gid rng1 now1 = (FinalizeOutcome.StateConflict, s')) := by
  have hst : (g.status == "active") = true := by simp [hact]
  constructor
  · exact ⟨selectedWinners s gid g rng1, commitFinalize s gid g rng1 now1,
      finalize_eq_of_active rng1 now1 hfind hst,
      finalize_after_commit (finalize_eq_of_active rng1 now1 hfind hst)
        rng2 now2⟩
  · exact ⟨selectedWinners s gid g rng2, commitFinalize s gid g rng2 now2,
      finalize_eq_of_active rng2 now2 hfind hst,
      finalize_after_commit (finalize_eq_of_active rng2 now2 hfind hst)
        rng1 now1⟩

theorem endNow_sweep_race_witness :
    (∃ ws s', endNowOp sOpen 1 idRng 300 =
        (FinalizeOutcome.Finalized ws, s') ∧
      sweepFinalize s' 1 idRng 301 = (FinalizeOutcome.StateConflict, s')) ∧
    (∃ ws s', sweepFinalize sOpen 1 idRng 301 =
        (FinalizeOutcome.Finalized ws, s') ∧
      endNowOp s' 1 idRng 300 = (FinalizeOutcome.StateConflict, s')) :=
  endNow_sweep_race sOpen 1 gOpen idRng idRng 300 301 (by decide) (by decide)

/-- C10: the enablement predicate of the edit action is exactly
"status is not ended": cancelled giveaways remain editable - the
control is enabled for them - and a validated edit form is sent as a
PUT request to the update endpoint of the giveaway; only status ended
disables editing. -/
theorem edit_enablement (st : String) :
    (editButtonDisabled st = true ↔ st = "ended") ∧
    editButtonDisabled "cancelled" = false ∧
    (∀ id f, ¬ jsTrim f.prize = "" → ¬ f.channel_id = "" →
      f.start_at < f.end_at →
      handleSubmitAction (some id) f =
        FormAction.send (updateGiveawayRequest id)) ∧
    (∀ id, (updateGiveawayRequest id).method = HttpMethod.PUT ∧
      (updateGiveawayRequest id).path = "/giveaways/" ++ toString id) := by
  refine ⟨by simp [editButtonDisabled], by decide, ?_, fun id => ⟨rfl, rfl⟩⟩
  intro id f h1 h2 h3
  unfold handleSubmitAction
  rw [if_neg (by simpa using h1), if_neg (by simpa using h2),
    if_neg (by simpa using Nat.not_le.mpr h3)]

theorem edit_enablement_witness :
    ¬ jsTrim fValid.prize = "" ∧ ¬ fValid.channel_id = "" ∧
    fValid.start_at < fValid.end_at ∧
    handleSubmitAction (some 3) fValid =
      FormAction.send (updateGiveawayRequest 3) :=
  ⟨by decide, by decide, by decide,
    (edit_enablement "cancelled").2.2.1 3 fValid (by decide) (by decide)
      (by decide)⟩

end Deckhand
